import Mathlib

/-!
Verification of the vers-tf provisioning and snapshot-lineage engine.

This file shallowly embeds the Go source of the repository:

* `internal/client` SSH transport (`NewSSHClient`, `Exec`, `ExecWithTimeout`,
  `WriteFile`, `ReadFile`, `WaitReachable`, `Cleanup`, `shellEscape`);
* `internal/resources` provisioning resource (`ProvisionResource.Create`,
  `ProvisionResource.Update`, `ProvisionResource.computeID`, `truncate`);
* `internal/resources` commit resource (`VMCommitResource.Create`,
  `VMCommitResource.Update`, `VMCommitResource.Delete`,
  `VMCommitResource.syncBeforeCommit`).

Go strings are byte strings; we model a Go string by its list of Unicode
code points (`String.data.map Char.toNat`).  UTF-8 is a prefix code, so this
representation is injective and concatenation-compatible with the byte
stream the Go code actually hashes and transmits.

Remote and filesystem effects are modelled by explicit environments
(records of call results) and by traces: each modelled operation returns
its outcome together with the ordered list of remote calls it issued.
-/

namespace VersTF

/-- Byte-stream view of a Go string: the list of code points of its
characters.  The Go code writes the UTF-8 bytes of the string; since UTF-8
is an injective, concatenation-respecting encoding of code-point lists,
equalities and inequalities of these lists transfer to the byte streams. -/
def strBytes (s : String) : List Nat := s.data.map Char.toNat

/-! ## SHA-256 (crypto/sha256), over byte lists

`ProvisionResource.computeID` feeds a byte stream into `sha256.New` and hex
encodes the digest.  We implement SHA-256 executably on `List Nat` (bytes),
with 32-bit words as naturals reduced modulo `2 ^ 32`. -/

/-- Modulus for 32-bit words. -/
def w32 : Nat := 4294967296

/-- Rotate a 32-bit word right by `n`. -/
def rotr32 (n x : Nat) : Nat := ((x >>> n) ||| (x <<< (32 - n))) % w32

/-- Bitwise complement of a 32-bit word. -/
def not32 (x : Nat) : Nat := x ^^^ 4294967295

/-- SHA-256 Ch function. -/
def ch32 (x y z : Nat) : Nat := (x &&& y) ^^^ (not32 x &&& z)

/-- SHA-256 Maj function. -/
def maj32 (x y z : Nat) : Nat := (x &&& y) ^^^ (x &&& z) ^^^ (y &&& z)

/-- SHA-256 big sigma 0. -/
def bigS0 (x : Nat) : Nat := rotr32 2 x ^^^ rotr32 13 x ^^^ rotr32 22 x

/-- SHA-256 big sigma 1. -/
def bigS1 (x : Nat) : Nat := rotr32 6 x ^^^ rotr32 11 x ^^^ rotr32 25 x

/-- SHA-256 small sigma 0. -/
def smallS0 (x : Nat) : Nat := rotr32 7 x ^^^ rotr32 18 x ^^^ (x >>> 3)

/-- SHA-256 small sigma 1. -/
def smallS1 (x : Nat) : Nat := rotr32 17 x ^^^ rotr32 19 x ^^^ (x >>> 10)

/-- SHA-256 round constants (FIPS 180-4, in decimal). -/
def k256 : List Nat :=
  [116352408, 1899447441, 3049323471, 3921009573, 961987163, 1508970993,
   2453635748, 2870763221, 3624381080, 310598401, 607225278, 1426881987,
   1925078388, 2162078206, 2614888103, 3248222580, 3835390401, 4022224774,
   264347078, 604807628, 770255983, 1249150122, 1555081692, 1996064986,
   2554220882, 2821834349, 2952996808, 3210313671, 3336571891, 3584528711,
   113926993, 338241895, 666307205, 773529912, 1294757372, 1396182291,
   1695183700, 1986661051, 2177026350, 2456956037, 2730485921, 2820302411,
   3259730800, 3345764771, 3516065817, 3600352804, 4094571909, 275423344,
   430227734, 506948616, 659060556, 883997877, 958139571, 1322822218,
   1537002063, 1747873779, 1955562222, 2024104815, 2227730452, 2361852424,
   2428436474, 2756734187, 3204031479, 3329325298]

/-- SHA-256 initial hash state (FIPS 180-4, in decimal). -/
def h256init : List Nat :=
  [779033703, 3144134277, 1013904242, 2773480762,
   1359893119, 2600822924, 528734635, 1541459225]

/-- Big-endian 8-byte encoding of a natural number (the message bit length). -/
def beBytes8 (n : Nat) : List Nat :=
  [n / 2 ^ 56 % 256, n / 2 ^ 48 % 256, n / 2 ^ 40 % 256, n / 2 ^ 32 % 256,
   n / 2 ^ 24 % 256, n / 2 ^ 16 % 256, n / 2 ^ 8 % 256, n % 256]

/-- SHA-256 padding: append 0x80, zero bytes up to 56 mod 64, then the
bit length as 8 big-endian bytes. -/
def sha256Pad (msg : List Nat) : List Nat :=
  msg ++ [128] ++ List.replicate ((55 + 64 - msg.length % 64) % 64) 0 ++ beBytes8 (msg.length * 8)

/-- Group a byte list into big-endian 32-bit words. -/
def bytesToWords : List Nat → List Nat
  | b0 :: b1 :: b2 :: b3 :: rest =>
      ((((b0 % 256) * 256 + b1 % 256) * 256 + b2 % 256) * 256 + b3 % 256) :: bytesToWords rest
  | _ => []

/-- Split a byte list into 64-byte chunks. -/
def chunks64 (l : List Nat) : List (List Nat) :=
  if h : l = [] then [] else l.take 64 :: chunks64 (l.drop 64)
termination_by l.length
decreasing_by
  simp only [List.length_drop]
  have : 0 < l.length := List.length_pos.mpr h
  omega

/-- Extend the 16 message words of a chunk to the 64-entry message schedule. -/
def schedule (ws : Array Nat) : Array Nat :=
  if h : ws.size < 64 then
    schedule (ws.push ((ws.getD (ws.size - 16) 0 + smallS0 (ws.getD (ws.size - 15) 0)
      + ws.getD (ws.size - 7) 0 + smallS1 (ws.getD (ws.size - 2) 0)) % w32))
  else ws
termination_by 64 - ws.size
decreasing_by
  simp only [Array.size_push]
  omega

/-- One SHA-256 compression round on the 8-word working state. -/
def compressRound (st : List Nat) (k wi : Nat) : List Nat :=
  match st with
  | [a, b, c, d, e, f, g, hh] =>
      let t1 := (hh + bigS1 e + ch32 e f g + k + wi) % w32
      let t2 := (bigS0 a + maj32 a b c) % w32
      [(t1 + t2) % w32, a, b, c, (d + t1) % w32, e, f, g]
  | other => other

/-- Process one 64-byte chunk, updating the 8-word hash state. -/
def processChunk (hs : List Nat) (chunk : List Nat) : List Nat :=
  let ws := schedule (bytesToWords chunk).toArray
  let st := (List.range 64).foldl (fun st i => compressRound st (k256.getD i 0) (ws.getD i 0)) hs
  List.zipWith (fun x y => (x + y) % w32) hs st

/-- SHA-256 digest of a byte list, as a list of 32 bytes. -/
def sha256 (msg : List Nat) : List Nat :=
  ((chunks64 (sha256Pad msg)).foldl processChunk h256init).flatMap
    (fun w => [w / 2 ^ 24 % 256, w / 2 ^ 16 % 256, w / 2 ^ 8 % 256, w % 256])

/-- Lowercase hex digit for a value below 16 (encoding/hex alphabet). -/
def hexDigit (n : Nat) : Char := "0123456789abcdef".data.getD n '0'

/-- Hex encoding of a byte list (encoding/hex.EncodeToString). -/
def hexEncode (bytes : List Nat) : List Char :=
  bytes.flatMap (fun b => [hexDigit (b / 16 % 16), hexDigit (b % 16)])

/-! ## Provisioning declaration (ProvisionResourceModel) and computeID -/

/-- A file block of the provisioning declaration: optional local source
path, optional inline content, required remote destination.  Terraform null
is `none`; a set (possibly empty) string is `some`. -/
structure FileBlock where
  source : Option String
  content : Option String
  destination : String
deriving DecidableEq

/-- The provisioning declaration: target VM, optional file list, optional
command list, optional trigger map.  The Go trigger map is modelled as an
association list whose keys are assumed distinct (Go map keys are). -/
structure ProvisionPlan where
  vmID : String
  files : Option (List FileBlock)
  commands : Option (List String)
  triggers : Option (List (String × String))
deriving DecidableEq

/-- Lexicographic (byte-order) comparison of character lists, as
sort.Strings orders Go strings. -/
def charListLt : List Char → List Char → Bool
  | _, [] => false
  | [], _ :: _ => true
  | c :: cs, d :: ds =>
      if c.toNat < d.toNat then true
      else if d.toNat < c.toNat then false
      else charListLt cs ds

/-- String order used to sort trigger keys. -/
def strLtB (a b : String) : Bool := charListLt a.data b.data

/-- Insert a trigger pair into a key-sorted list, keeping it sorted
(ascending by key). -/
def insertByKey (kv : String × String) : List (String × String) → List (String × String)
  | [] => [kv]
  | x :: xs => if strLtB x.1 kv.1 then x :: insertByKey kv xs else kv :: x :: xs

/-- Sort trigger pairs ascending by key.  This models computeID collecting
the map keys, running sort.Strings on them and then iterating the map in
that order; with distinct keys any sort by key yields this list. -/
def sortTriggers : List (String × String) → List (String × String)
  | [] => []
  | x :: xs => insertByKey x (sortTriggers xs)

/-- Hash contribution of a file block's source field: for a non-null source
the local file content when readable, falling back to the source path
string itself (os.ReadFile error branch).  The local filesystem is the
explicit parameter `fsys`. -/
def sourceHashBytes (fsys : String → Option (List Nat)) (f : FileBlock) : List Nat :=
  match f.source with
  | none => []
  | some s =>
    match fsys s with
    | some c => c
    | none => strBytes s

/-- Hash contribution of a file block's inline content field. -/
def contentHashBytes (f : FileBlock) : List Nat :=
  match f.content with
  | none => []
  | some c => strBytes c

/-- Resolved content of a file block as computeID hashes it: source-file
content (or fallback) followed by inline content. -/
def resolvedBytes (fsys : String → Option (List Nat)) (f : FileBlock) : List Nat :=
  sourceHashBytes fsys f ++ contentHashBytes f

/-- Hash contribution of one file block: destination bytes, then the
resolved content. -/
def fileHashBytes (fsys : String → Option (List Nat)) (f : FileBlock) : List Nat :=
  strBytes f.destination ++ resolvedBytes fsys f

/-- Hash contribution of the file list (absent list contributes nothing). -/
def filesHashBytes (fsys : String → Option (List Nat)) : Option (List FileBlock) → List Nat
  | none => []
  | some fl => (fl.map (fileHashBytes fsys)).flatten

/-- Hash contribution of the command list. -/
def commandsHashBytes : Option (List String) → List Nat
  | none => []
  | some cs => (cs.map strBytes).flatten

/-- Hash contribution of one trigger pair: key bytes then value bytes. -/
def pairBytes (kv : String × String) : List Nat := strBytes kv.1 ++ strBytes kv.2

/-- Hash contribution of the trigger map: sorted pairs, key then value. -/
def triggersHashBytes : Option (List (String × String)) → List Nat
  | none => []
  | some ts => ((sortTriggers ts).map pairBytes).flatten

/-- The byte stream ProvisionResource.computeID feeds into SHA-256: VM
identifier, then files (destination, source content or fallback, inline
content), then commands, then sorted trigger pairs — all concatenated with
no separators, exactly as the successive h.Write calls do. -/
def hashInput (fsys : String → Option (List Nat)) (p : ProvisionPlan) : List Nat :=
  strBytes p.vmID ++ filesHashBytes fsys p.files
    ++ commandsHashBytes p.commands ++ triggersHashBytes p.triggers

/-- ProvisionResource.computeID: first 16 characters of the lowercase hex
encoding of the SHA-256 digest of the serialized declaration. -/
def computeID (fsys : String → Option (List Nat)) (p : ProvisionPlan) : String :=
  String.mk ((hexEncode (sha256 (hashInput fsys p))).take 16)

/-- The truncate helper of the resources package: identity for strings of
length at most n, otherwise the first n characters followed by an
ellipsis. -/
def truncate (s : String) (n : Nat) : String :=
  if s.length ≤ n then s else String.mk (s.data.take n) ++ "..."

/-! ## SSH transport (internal/client, part_002) -/

/-- Single-quote character, kept out of literals for hygiene. -/
def sqChar : Char := Char.ofNat 39

/-- Backslash character. -/
def bsChar : Char := Char.ofNat 92

/-- Single-quote as a one-character string. -/
def sq : String := String.mk [sqChar]

/-- shellEscape: replace every single quote by quote-backslash-quote-quote
(strings.ReplaceAll(s, quote, escaped)). -/
def shellEscape (s : String) : String :=
  String.mk (s.data.flatMap (fun c => if c = sqChar then [sqChar, bsChar, sqChar, sqChar] else [c]))

/-- Base64 standard alphabet (encoding/base64.StdEncoding). -/
def b64Alphabet : List Char :=
  "ABCDEFGHIJKLMNOPQRSTUVWXYZabcdefghijklmnopqrstuvwxyz0123456789+/".data

/-- Character for a 6-bit group. -/
def b64Char (n : Nat) : Char := b64Alphabet.getD n 'A'

/-- Index of a base64 character in the alphabet. -/
def b64Index (c : Char) : Nat := b64Alphabet.indexOf c

/-- Base64 encoding of a byte list, with padding, as produced by
base64.StdEncoding.EncodeToString. -/
def b64Encode : List Nat → List Char
  | [] => []
  | [b1] => [b64Char (b1 / 4), b64Char (b1 % 4 * 16), '=', '=']
  | [b1, b2] => [b64Char (b1 / 4), b64Char (b1 % 4 * 16 + b2 / 16), b64Char (b2 % 16 * 4), '=']
  | b1 :: b2 :: b3 :: rest =>
      b64Char (b1 / 4) :: b64Char (b1 % 4 * 16 + b2 / 16) :: b64Char (b2 % 16 * 4 + b3 / 64)
        :: b64Char (b3 % 64) :: b64Encode rest

/-- Base64 decoding of a padded character list, as the remote base64 -d
performs it. -/
def b64Decode : List Char → List Nat
  | c1 :: c2 :: c3 :: c4 :: rest =>
      if c3 = '=' then [b64Index c1 * 4 + b64Index c2 / 16]
      else if c4 = '=' then
        [b64Index c1 * 4 + b64Index c2 / 16, b64Index c2 % 16 * 16 + b64Index c3 / 4]
      else
        (b64Index c1 * 4 + b64Index c2 / 16) :: (b64Index c2 % 16 * 16 + b64Index c3 / 4)
          :: (b64Index c3 % 4 * 64 + b64Index c4) :: b64Decode rest
  | _ => []

/-- Remote filesystem: map from path to file content (bytes). -/
def RemoteFS : Type := String → Option (List Nat)

/-- Effect on the remote filesystem of the transfer command
`echo (encoded) | base64 -d > (path)`: the remote shell decodes the
transmitted base64 text and stores the result at the path. -/
def execWriteCmd (fs : RemoteFS) (path : String) (encoded : List Char) : RemoteFS :=
  fun p => if p = path then some (b64Decode encoded) else fs p

/-- SSHClient.WriteFile content effect: the content is base64 encoded
locally and decoded by the remote (the mkdir -p step touches no file
content). -/
def writeFileFS (fs : RemoteFS) (path : String) (content : List Nat) : RemoteFS :=
  execWriteCmd fs path (b64Encode content)

/-- SSHClient.ReadFile: cat the path, returning the stored bytes. -/
def readFileFS (fs : RemoteFS) (path : String) : Option (List Nat) := fs path

/-! ## Timeout structure of the transport (Exec vs ExecWithTimeout) -/

/-- A single remote command issued over SSH, together with the Go-side
timeout bound it runs under: `none` for SSHClient.Exec (cmd.Run with no
timeout) and `some t` for SSHClient.ExecWithTimeout. -/
structure SSHOp where
  command : String
  timeout : Option Nat
deriving DecidableEq

/-- Directory part of a slash-separated path, modelling filepath.Dir for
the absolute remote paths this provider handles: text before the last
slash, dot when there is no slash, root when that text is empty. -/
def dirOf (p : String) : String :=
  if p.data.contains '/' then
    match ((p.data.reverse.dropWhile (fun c => c ≠ '/')).drop 1).reverse with
    | [] => "/"
    | pre => String.mk pre
  else "."

/-- The mkdir command WriteFile issues for the destination's parent. -/
def mkdirCmd (dir : String) : String := "mkdir -p " ++ sq ++ shellEscape dir ++ sq

/-- The transfer command WriteFile issues for the content. -/
def transferCmd (path : String) (content : List Nat) : String :=
  "echo " ++ sq ++ String.mk (b64Encode content) ++ sq ++ " | base64 -d > " ++ sq
    ++ shellEscape path ++ sq

/-- The remote operations SSHClient.WriteFile performs, in order, each
tagged with its timeout bound.  Both go through Exec, which runs the
command with no timeout, hence `none`. -/
def writeFileOps (path : String) (content : List Nat) : List SSHOp :=
  (if dirOf path ≠ "." ∧ dirOf path ≠ "/" then [⟨mkdirCmd (dirOf path), none⟩] else [])
    ++ [⟨transferCmd path content, none⟩]

/-- Result of one ExecWithTimeout call: captured stdout, optional error,
and whether the underlying process was forcibly killed. -/
structure ExecOutcome where
  out : String
  err : Option String
  killed : Bool
deriving DecidableEq

/-- Timeout error message of ExecWithTimeout. -/
def timeoutMsg (t : Nat) : String := "SSH command timed out after " ++ toString t

/-- Remote failure message of ExecWithTimeout (err plus stderr collapsed
into one model string). -/
def execFailMsg (e : String) : String := "SSH exec failed: " ++ e

/-- Model of SSHClient.ExecWithTimeout: the remote command would take
`dur` to finish with output `fullOut` and error `remoteErr`; `partOut` is
whatever stdout had been captured by the deadline.  Within the bound the
normal result is returned; past it the process is killed and a timeout
error is returned with the partial output. -/
def execWithTimeout (dur : Nat) (fullOut partOut : String) (remoteErr : Option String)
    (t : Nat) : ExecOutcome :=
  if dur ≤ t then
    match remoteErr with
    | some e => ⟨fullOut, some (execFailMsg e), false⟩
    | none => ⟨fullOut, none, false⟩
  else ⟨partOut, some (timeoutMsg t), true⟩

/-! ## WaitReachable (SSHClient.WaitReachable) -/

/-- Environment for the reachability loop: for the k-th probe (the k-th
ExecWithTimeout of `echo ready`), its output, its error, and how long it
took; time is in seconds, matching the 3-second sleep of the source. -/
structure ProbeEnv where
  probeOut : Nat → String
  probeErr : Nat → Option String
  probeDur : Nat → Nat

/-- Structural model of strings.TrimSpace: drop whitespace from both ends
of the character list. -/
def trimSp (s : String) : String :=
  String.mk (((s.data.dropWhile Char.isWhitespace).reverse.dropWhile Char.isWhitespace).reverse)

/-- The k-th probe succeeds: no error, and trimmed output is `ready`. -/
def probeOK (env : ProbeEnv) (k : Nat) : Prop :=
  env.probeErr k = none ∧ trimSp (env.probeOut k) = "ready"

instance (env : ProbeEnv) (k : Nat) : Decidable (probeOK env k) := by
  unfold probeOK; infer_instance

/-- Result of the reachability loop: success flag, finish time, last
probe error. -/
structure WaitResult where
  success : Bool
  finish : Nat
  lastErr : Option String
deriving DecidableEq

/-- The polling loop of WaitReachable: while the current time is before
the deadline, run a probe; return success at the probe's completion time,
otherwise record the probe's error, sleep 3 seconds and retry. -/
def waitAux (env : ProbeEnv) (deadline k t : Nat) (lastE : Option String) : WaitResult :=
  if t < deadline then
    if probeOK env k then ⟨true, t + env.probeDur k, none⟩
    else waitAux env deadline (k + 1) (t + env.probeDur k + 3) (env.probeErr k)
  else ⟨false, t, lastE⟩
termination_by deadline - t
decreasing_by omega

/-- Start time of the m-th probe when probing begins at index k: each
earlier probe contributes its duration plus the 3-second sleep. -/
def offSum (env : ProbeEnv) (k : Nat) : Nat → Nat
  | 0 => 0
  | m + 1 => env.probeDur k + 3 + offSum env (k + 1) m

/-- Final unreachable message, wrapping the last probe error if any. -/
def unreachableMsg (vm : String) (t : Nat) (lastE : Option String) : String :=
  match lastE with
  | some e => "VM " ++ vm ++ " not reachable via SSH after " ++ toString t ++ ": " ++ e
  | none => "VM " ++ vm ++ " not reachable via SSH after " ++ toString t

/-- SSHClient.WaitReachable: run the polling loop from time zero; on
success return ok, otherwise the unreachable error.  The second component
is the time at which the call returns. -/
def waitReachable (env : ProbeEnv) (vm : String) (t : Nat) : Except String Unit × Nat :=
  let r := waitAux env t 0 0 none
  if r.success then (Except.ok (), r.finish)
  else (Except.error (unreachableMsg vm t r.lastErr), r.finish)

/-! ## Ephemeral credential key paths (NewSSHClient, Cleanup) -/

/-- The truncated VM identifier used in the key file name:
vmID[:min(12, len(vmID))]. -/
def truncVM (vm : String) : String := String.mk (vm.data.take 12)

/-- Path of the per-VM ephemeral private-key file written by NewSSHClient:
tempDir/vers-tf-ssh-keys/vers-(truncated id).pem. -/
def keyPath (tmpDir vm : String) : String :=
  tmpDir ++ "/vers-tf-ssh-keys/" ++ "vers-" ++ truncVM vm ++ ".pem"

/-! ## Provisioning resource runs (ProvisionResource.Create / Update) -/

/-- One remote interaction of a provisioning run. -/
inductive RemoteCall where
  | getSSHKey (vm : String)
  | waitReach (vm : String)
  | uploadFile (src dest : String)
  | writeInline (dest : String) (content : String)
  | execCmd (cmd : String)
deriving DecidableEq

/-- Environment of one provisioning run: results of the credential fetch,
the local client setup (temp key write), the reachability wait, per-file
transfer results, and per-position command execution results (output and
optional error). -/
structure ProvisionEnv where
  getKey : String → Except String String
  clientSetup : Except String Unit
  reach : Except String Unit
  upload : String → String → Option String
  writeF : String → String → Option String
  cmdExec : Nat → String × Option String

/-- A Terraform string attribute counts as set when it is non-null and
non-empty — the guard the file loop uses. -/
def optSet (o : Option String) : Bool :=
  match o with
  | some s => s ≠ ""
  | none => false

/-- Diagnostic summary for a failed credential fetch. -/
def sshKeyFailMsg : String := "Failed to get SSH key for VM"

/-- Diagnostic summary for a failed client setup. -/
def clientFailMsg : String := "Failed to create SSH client"

/-- Diagnostic summary for an unreachable VM. -/
def unreachFailMsg : String := "VM not reachable via SSH"

/-- Configuration error summary naming the offending file block by
1-based position (Create path). -/
def configErrSummary (i : Nat) : String :=
  "File block " ++ toString (i + 1) ++ ": either " ++ sq ++ "source" ++ sq
    ++ " or " ++ sq ++ "content" ++ sq ++ " must be specified"

/-- Configuration error detail (Create path). -/
def configErrDetail : String :=
  "Each file block requires either a " ++ sq ++ "source" ++ sq
    ++ " (local file path) or " ++ sq ++ "content" ++ sq ++ " (inline string)."

/-- Upload failure summary on the Create path. -/
def uploadFailMsg (src dest : String) : String :=
  "Failed to upload file " ++ src ++ " -> " ++ dest

/-- Inline-write failure summary (both paths). -/
def writeFailMsg (dest : String) : String := "Failed to write content to " ++ dest

/-- Upload failure summary on the Update path. -/
def updUploadFailMsg (dest : String) : String := "Failed to upload file to " ++ dest

/-- Command failure summary: names the 1-based position (`i` here is the
0-based loop index) and the command truncated to 80 characters. -/
def cmdFailSummary (i : Nat) (cmd : String) : String :=
  "Command " ++ toString (i + 1) ++ " failed: " ++ truncate cmd 80

/-- Command failure detail: the error and the captured output truncated
to 2000 characters. -/
def cmdFailDetail (e out : String) : String :=
  "Error: " ++ e ++ "\nOutput: " ++ truncate out 2000

/-- Outcome of a provisioning run: the computed fingerprint identifier, or
a diagnostic (summary, detail) pair. -/
inductive POutcome where
  | ok (id : String)
  | fail (summary detail : String)
deriving DecidableEq

/-- The remote call a well-formed file block gives rise to. -/
def fileEvent (f : FileBlock) : RemoteCall :=
  if optSet f.source then RemoteCall.uploadFile (f.source.getD "") f.destination
  else RemoteCall.writeInline f.destination (f.content.getD "")

/-- The Create-path file loop: upload a set source, else write set inline
content, else stop with the configuration error naming the position;
`i` is the 0-based index of the first block of the list. -/
def runFilesCreate (env : ProvisionEnv) : List FileBlock → Nat →
    Except (String × String) Unit × List RemoteCall
  | [], _ => (Except.ok (), [])
  | f :: rest, i =>
    if optSet f.source then
      match env.upload (f.source.getD "") f.destination with
      | some e => (Except.error (uploadFailMsg (f.source.getD "") f.destination, e),
          [RemoteCall.uploadFile (f.source.getD "") f.destination])
      | none =>
        let r := runFilesCreate env rest (i + 1)
        (r.1, RemoteCall.uploadFile (f.source.getD "") f.destination :: r.2)
    else if optSet f.content then
      match env.writeF f.destination (f.content.getD "") with
      | some e => (Except.error (writeFailMsg f.destination, e),
          [RemoteCall.writeInline f.destination (f.content.getD "")])
      | none =>
        let r := runFilesCreate env rest (i + 1)
        (r.1, RemoteCall.writeInline f.destination (f.content.getD "") :: r.2)
    else (Except.error (configErrSummary i, configErrDetail), [])

/-- The Update-path file loop: like Create's but a block with neither
field set is silently skipped (the loop has no else branch), and the
upload failure summary names only the destination. -/
def runFilesUpdate (env : ProvisionEnv) : List FileBlock →
    Except (String × String) Unit × List RemoteCall
  | [] => (Except.ok (), [])
  | f :: rest =>
    if optSet f.source then
      match env.upload (f.source.getD "") f.destination with
      | some e => (Except.error (updUploadFailMsg f.destination, e),
          [RemoteCall.uploadFile (f.source.getD "") f.destination])
      | none =>
        let r := runFilesUpdate env rest
        (r.1, RemoteCall.uploadFile (f.source.getD "") f.destination :: r.2)
    else if optSet f.content then
      match env.writeF f.destination (f.content.getD "") with
      | some e => (Except.error (writeFailMsg f.destination, e),
          [RemoteCall.writeInline f.destination (f.content.getD "")])
      | none =>
        let r := runFilesUpdate env rest
        (r.1, RemoteCall.writeInline f.destination (f.content.getD "") :: r.2)
    else runFilesUpdate env rest

/-- The command loop (identical on both paths): run each command in order
via ExecWithTimeout; a failure stops the run with the diagnostic naming
the position and carrying the truncated output. -/
def runCmds (env : ProvisionEnv) : List String → Nat →
    Except (String × String) Unit × List RemoteCall
  | [], _ => (Except.ok (), [])
  | c :: rest, i =>
    match env.cmdExec i with
    | (out, some e) => (Except.error (cmdFailSummary i c, cmdFailDetail e out),
        [RemoteCall.execCmd c])
    | (_, none) =>
      let r := runCmds env rest (i + 1)
      (r.1, RemoteCall.execCmd c :: r.2)

/-- File phase of a run: absent list does nothing. -/
def runFilesPhase (loop : List FileBlock → Except (String × String) Unit × List RemoteCall) :
    Option (List FileBlock) → Except (String × String) Unit × List RemoteCall
  | none => (Except.ok (), [])
  | some fl => loop fl

/-- Command phase of a run: absent list does nothing. -/
def runCmdsPhase (env : ProvisionEnv) : Option (List String) →
    Except (String × String) Unit × List RemoteCall
  | none => (Except.ok (), [])
  | some cs => runCmds env cs 0

/-- ProvisionResource.Create: credential fetch, client setup, reachability
wait, file loop, command loop, then the computed fingerprint; each stage
failure stops the run with its diagnostic.  The second component is the
ordered remote-call trace. -/
def createRun (env : ProvisionEnv) (fsys : String → Option (List Nat)) (p : ProvisionPlan) :
    POutcome × List RemoteCall :=
  match env.getKey p.vmID with
  | Except.error e => (POutcome.fail sshKeyFailMsg e, [RemoteCall.getSSHKey p.vmID])
  | Except.ok _ =>
    match env.clientSetup with
    | Except.error e => (POutcome.fail clientFailMsg e, [RemoteCall.getSSHKey p.vmID])
    | Except.ok _ =>
      match env.reach with
      | Except.error e => (POutcome.fail unreachFailMsg e,
          [RemoteCall.getSSHKey p.vmID, RemoteCall.waitReach p.vmID])
      | Except.ok _ =>
        match runFilesPhase (fun fl => runFilesCreate env fl 0) p.files with
        | (Except.error sd, tr) => (POutcome.fail sd.1 sd.2,
            RemoteCall.getSSHKey p.vmID :: RemoteCall.waitReach p.vmID :: tr)
        | (Except.ok _, tr) =>
          match runCmdsPhase env p.commands with
          | (Except.error sd, tr2) => (POutcome.fail sd.1 sd.2,
              RemoteCall.getSSHKey p.vmID :: RemoteCall.waitReach p.vmID :: (tr ++ tr2))
          | (Except.ok _, tr2) => (POutcome.ok (computeID fsys p),
              RemoteCall.getSSHKey p.vmID :: RemoteCall.waitReach p.vmID :: (tr ++ tr2))

/-- ProvisionResource.Update (re-provisioning on trigger change): same
pipeline as Create but with the Update file loop. -/
def updateRun (env : ProvisionEnv) (fsys : String → Option (List Nat)) (p : ProvisionPlan) :
    POutcome × List RemoteCall :=
  match env.getKey p.vmID with
  | Except.error e => (POutcome.fail sshKeyFailMsg e, [RemoteCall.getSSHKey p.vmID])
  | Except.ok _ =>
    match env.clientSetup with
    | Except.error e => (POutcome.fail clientFailMsg e, [RemoteCall.getSSHKey p.vmID])
    | Except.ok _ =>
      match env.reach with
      | Except.error e => (POutcome.fail unreachFailMsg e,
          [RemoteCall.getSSHKey p.vmID, RemoteCall.waitReach p.vmID])
      | Except.ok _ =>
        match runFilesPhase (runFilesUpdate env) p.files with
        | (Except.error sd, tr) => (POutcome.fail sd.1 sd.2,
            RemoteCall.getSSHKey p.vmID :: RemoteCall.waitReach p.vmID :: tr)
        | (Except.ok _, tr) =>
          match runCmdsPhase env p.commands with
          | (Except.error sd, tr2) => (POutcome.fail sd.1 sd.2,
              RemoteCall.getSSHKey p.vmID :: RemoteCall.waitReach p.vmID :: (tr ++ tr2))
          | (Except.ok _, tr2) => (POutcome.ok (computeID fsys p),
              RemoteCall.getSSHKey p.vmID :: RemoteCall.waitReach p.vmID :: (tr ++ tr2))

/-! ## Commit resource (VMCommitResource, hdresearch/vers-tf version) -/

/-- One call made by the commit resource: SSH-key fetch (API), a command
over the transport, or the remote commit API call. -/
inductive CommitCall where
  | apiGetSSHKey (vm : String)
  | sshExec (cmd : String)
  | apiCommitVM (vm : String) (keepPaused : Bool)
deriving DecidableEq

/-- Environment of a commit operation: credential fetch result, client
setup result, the sync command's error if any, and the remote CommitVM
result (the new commit identifier). -/
structure CommitEnv where
  getKey : String → Except String String
  clientSetup : Except String Unit
  syncErr : Option String
  commitResult : Except String String

/-- The flush command run before a commit. -/
def syncCmdStr : String := "sync"

/-- VMCommitResource.syncBeforeCommit: fetch the key and open a client;
any failure is logged as a warning and the flush is skipped; otherwise run
sync over the transport (its failure, too, only warns).  The function
returns the calls it made — it never fails. -/
def syncBeforeCommit (env : CommitEnv) (vm : String) : List CommitCall :=
  match env.getKey vm with
  | Except.error _ => [CommitCall.apiGetSSHKey vm]
  | Except.ok _ =>
    match env.clientSetup with
    | Except.error _ => [CommitCall.apiGetSSHKey vm]
    | Except.ok _ => [CommitCall.apiGetSSHKey vm, CommitCall.sshExec syncCmdStr]

/-- Commit failure summary on the Create path. -/
def commitFailMsg : String := "Failed to commit VM"

/-- Commit failure summary on the Update (re-commit) path. -/
def recommitFailMsg : String := "Failed to re-commit VM"

/-- VMCommitResource.Create: flush, then the remote commit call; the
result is the commit identifier or the commit diagnostic.  The second
component is the ordered call trace. -/
def commitCreate (env : CommitEnv) (vm : String) (kp : Bool) :
    Except (String × String) String × List CommitCall :=
  match env.commitResult with
  | Except.error e => (Except.error (commitFailMsg, e),
      syncBeforeCommit env vm ++ [CommitCall.apiCommitVM vm kp])
  | Except.ok cid => (Except.ok cid, syncBeforeCommit env vm ++ [CommitCall.apiCommitVM vm kp])

/-- VMCommitResource.Update (trigger-driven re-commit): identical to
Create except for the failure summary. -/
def commitUpdate (env : CommitEnv) (vm : String) (kp : Bool) :
    Except (String × String) String × List CommitCall :=
  match env.commitResult with
  | Except.error e => (Except.error (recommitFailMsg, e),
      syncBeforeCommit env vm ++ [CommitCall.apiCommitVM vm kp])
  | Except.ok cid => (Except.ok cid, syncBeforeCommit env vm ++ [CommitCall.apiCommitVM vm kp])

/-- Local Terraform state record of a commit resource. -/
structure CommitRecord where
  id : String
  vmID : String
  commitID : String
  keepPaused : Bool
deriving DecidableEq

/-- VMCommitResource.Delete: the remote API cannot delete commits, so the
body only drops the local record — no call of any kind is made. -/
def commitDelete (rec : Option CommitRecord) : Option CommitRecord × List CommitCall :=
  (none, [])

/-- Effect of one commit-resource call on the remote image store (commit
id to source VM): the commit API adds an image under a fresh identifier;
nothing else touches the store. -/
def applyCall (fresh : String) (imgs : String → Option String) :
    CommitCall → (String → Option String)
  | CommitCall.apiCommitVM vm _ => fun c => if c = fresh then some vm else imgs c
  | _ => imgs

/-- Effect of a call trace on the remote image store. -/
def applyCalls (fresh : String) (imgs : String → Option String) :
    List CommitCall → (String → Option String)
  | [] => imgs
  | c :: cs => applyCalls fresh (applyCall fresh imgs c) cs

/-! ## Sample inputs used by witnesses and counterexamples -/

/-- Sample temp directory (os.TempDir on the target platform). -/
def tmpD : String := "/tmp"

/-- Sample VM identifier. -/
def vmW : String := "vm-1234"

/-- Sample credential material. -/
def keyW : String := "PRIVATE-KEY"

/-- Sample commit identifier. -/
def cidW : String := "commit-42"

/-- Sample error text. -/
def errW : String := "connection refused"

/-- Two distinct VM identifiers sharing their first 12 characters. -/
def vmColl1 : String := "abcdefghijkl-one"

/-- Second identifier of the colliding pair. -/
def vmColl2 : String := "abcdefghijkl-two"

/-- Two VM identifiers that differ within their first 12 characters. -/
def vmD1 : String := "vm-short-a"

/-- Second identifier of the distinct pair. -/
def vmD2 : String := "vm-short-b"

/-- Commit environment in which every stage succeeds. -/
def cenvOK : CommitEnv :=
  { getKey := fun _ => Except.ok keyW
    clientSetup := Except.ok ()
    syncErr := none
    commitResult := Except.ok cidW }

/-- Commit environment in which the credential fetch fails, so the flush
is skipped, but the commit API succeeds. -/
def cenvNoKey : CommitEnv :=
  { getKey := fun _ => Except.error errW
    clientSetup := Except.ok ()
    syncErr := none
    commitResult := Except.ok cidW }

/-- Sample remote path. -/
def pathW : String := "/tmp/a.sh"

/-- A file block the loops can process without error in environment
`env`: a set source whose upload succeeds, or no set source and a set
content whose write succeeds. -/
def goodF (env : ProvisionEnv) (f : FileBlock) : Prop :=
  (optSet f.source = true ∧ env.upload (f.source.getD "") f.destination = none) ∨
  (optSet f.source = false ∧ optSet f.content = true ∧
    env.writeF f.destination (f.content.getD "") = none)

/-- Empty local filesystem. -/
def emptyFsys : String → Option (List Nat) := fun _ => none

/-- Empty string constant. -/
def emptyS : String := ""

/-- Provisioning environment in which every stage succeeds and every
command exits cleanly with empty output. -/
def penvOK : ProvisionEnv :=
  { getKey := fun _ => Except.ok keyW
    clientSetup := Except.ok ()
    reach := Except.ok ()
    upload := fun _ _ => none
    writeF := fun _ _ => none
    cmdExec := fun _ => (emptyS, none) }

/-- Sample command strings. -/
def cmdA : String := "chmod +x /tmp/a.sh"

/-- Second sample command. -/
def cmdB : String := "/tmp/a.sh"

/-- Third sample command. -/
def cmdC : String := "echo done"

/-- Sample command output. -/
def outW : String := "hi"

/-- Provisioning environment in which the command at 0-based position 1
exits non-zero with output `outW` and error `errW`; all else succeeds. -/
def penvCmdFail : ProvisionEnv :=
  { getKey := fun _ => Except.ok keyW
    clientSetup := Except.ok ()
    reach := Except.ok ()
    upload := fun _ _ => none
    writeF := fun _ _ => none
    cmdExec := fun i => if i = 1 then (outW, some errW) else (emptyS, none) }

/-- A file block with neither source nor content set. -/
def badBlock : FileBlock := { source := none, content := none, destination := pathW }

/-- A file block with both source and content set. -/
def bothBlock : FileBlock :=
  { source := some pathW, content := some keyW, destination := pathW }

/-- A well-formed inline-content file block. -/
def inlineBlock : FileBlock := { source := none, content := some keyW, destination := pathW }

/-- Plan whose only file block has neither source nor content. -/
def planBad : ProvisionPlan :=
  { vmID := vmW, files := some [badBlock], commands := none, triggers := none }

/-- Plan whose only file block has both source and content. -/
def planBoth : ProvisionPlan :=
  { vmID := vmW, files := some [bothBlock], commands := none, triggers := none }

/-- Plan with one good file block before the misconfigured one. -/
def planBadSecond : ProvisionPlan :=
  { vmID := vmW, files := some [inlineBlock, badBlock], commands := none, triggers := none }

/-- Plan with three commands and no files. -/
def planCmds : ProvisionPlan :=
  { vmID := vmW, files := none, commands := some [cmdA, cmdB, cmdC], triggers := none }

/-- Whether a provisioning outcome is a success. -/
def pOk : POutcome → Bool
  | POutcome.ok _ => true
  | POutcome.fail _ _ => false

/-- Two optional file lists agree as inputs of computeID: both absent, or
pointwise equal destinations and resolved contents. -/
def filesMatch (fsys : String → Option (List Nat)) :
    Option (List FileBlock) → Option (List FileBlock) → Prop
  | none, none => True
  | some l1, some l2 =>
      List.Forall₂ (fun f g => f.destination = g.destination ∧
        resolvedBytes fsys f = resolvedBytes fsys g) l1 l2
  | _, _ => False

/-- Numeric view of a fingerprint string: its characters as base-2^32
digits.  Injective on strings of a fixed length, and bounded by
2^32 ^ length. -/
def fpVal (s : String) : Nat :=
  s.data.foldl (fun a c => a * 4294967296 + c.toNat) 0

/-- Letter used to build pairwise distinct command strings. -/
def aChar : Char := 'a'

/-- The command string of n letters. -/
def aStr (n : Nat) : String := String.mk (List.replicate n aChar)

/-- Plan whose only degree of freedom is a single command string of n
letters — the family on which the fingerprint must collide. -/
def cplan (n : Nat) : ProvisionPlan :=
  { vmID := vmW, files := none, commands := some [aStr n], triggers := none }

/-- Claim C1 as stated: with equal resolved inputs the fingerprint agrees,
and a change of a single file's resolved content, of a single command, or
of a single trigger value changes the fingerprint itself. -/
def claimC1 : Prop :=
  (∀ (fsys : String → Option (List Nat)) (p q : ProvisionPlan),
      p.vmID = q.vmID → filesMatch fsys p.files q.files → p.commands = q.commands →
      Option.map sortTriggers p.triggers = Option.map sortTriggers q.triggers →
      computeID fsys p = computeID fsys q) ∧
  (∀ (fsys : String → Option (List Nat)) (p q : ProvisionPlan)
      (pre suf : List FileBlock) (fb gb : FileBlock),
      p.vmID = q.vmID → p.commands = q.commands →
      Option.map sortTriggers p.triggers = Option.map sortTriggers q.triggers →
      p.files = some (pre ++ fb :: suf) → q.files = some (pre ++ gb :: suf) →
      fb.destination = gb.destination →
      resolvedBytes fsys fb ≠ resolvedBytes fsys gb →
      computeID fsys p ≠ computeID fsys q) ∧
  (∀ (fsys : String → Option (List Nat)) (p q : ProvisionPlan)
      (pre suf : List String) (c d : String),
      p.vmID = q.vmID → filesMatch fsys p.files q.files →
      Option.map sortTriggers p.triggers = Option.map sortTriggers q.triggers →
      p.commands = some (pre ++ c :: suf) → q.commands = some (pre ++ d :: suf) →
      c ≠ d → computeID fsys p ≠ computeID fsys q) ∧
  (∀ (fsys : String → Option (List Nat)) (p q : ProvisionPlan)
      (tsP tsQ : List (String × String)) (pre suf : List (String × String))
      (key v w : String),
      p.vmID = q.vmID → filesMatch fsys p.files q.files → p.commands = q.commands →
      p.triggers = some tsP → q.triggers = some tsQ →
      sortTriggers tsP = pre ++ (key, v) :: suf →
      sortTriggers tsQ = pre ++ (key, w) :: suf →
      v ≠ w → computeID fsys p ≠ computeID fsys q)

/-- Sample trigger keys and values. -/
def kA : String := "pkg"

/-- Second sample trigger key. -/
def kB : String := "script"

/-- Sample trigger value. -/
def vA : String := "v1"

/-- Second sample trigger value. -/
def vB : String := "sha-123"

/-- Plan with two triggers in one order. -/
def tplan1 : ProvisionPlan :=
  { vmID := vmW, files := some [inlineBlock], commands := some [cmdA],
    triggers := some [(kA, vA), (kB, vB)] }

/-- The same plan with the trigger pairs listed in the other order. -/
def tplan2 : ProvisionPlan :=
  { vmID := vmW, files := some [inlineBlock], commands := some [cmdA],
    triggers := some [(kB, vB), (kA, vA)] }

/-- Plan differing from tplan1 in its only command. -/
def tplan3 : ProvisionPlan :=
  { vmID := vmW, files := some [inlineBlock], commands := some [cmdB],
    triggers := some [(kA, vA), (kB, vB)] }

/-- Probe environment in which every probe answers ready in one second. -/
def penvGood : ProbeEnv :=
  { probeOut := fun _ => "ready"
    probeErr := fun _ => none
    probeDur := fun _ => 1 }

/-- Probe environment in which every probe errors after one second. -/
def penvBad : ProbeEnv :=
  { probeOut := fun _ => ""
    probeErr := fun _ => some errW
    probeDur := fun _ => 1 }

/-- Sample byte content containing a NUL byte, a single-quote character,
an ASCII letter and a byte outside ASCII. -/
def contentW : List Nat := [0, 39, 104, 226, 255]

/-- Empty remote filesystem. -/
def emptyFS : RemoteFS := fun _ => none

/-! # Theorems -/

/-- Decoding inverts the base64 character map on 6-bit values. -/
theorem b64Index_b64Char : ∀ n, n < 64 → b64Index (b64Char n) = n := by decide

/-- Base64 alphabet characters are never the padding character. -/
theorem b64Char_ne_pad : ∀ n, n < 64 → b64Char n ≠ '=' := by decide

/-- Base64 decoding inverts base64 encoding on byte lists. -/
theorem b64_roundtrip : ∀ l : List Nat, (∀ b ∈ l, b < 256) → b64Decode (b64Encode l) = l := by
  intro l hb
  induction l using b64Encode.induct with
  | case1 => rfl
  | case2 b1 =>
    have h1 : b1 < 256 := hb b1 (by simp)
    simp only [b64Encode, b64Decode, if_true]
    rw [b64Index_b64Char (b1 / 4) (by omega), b64Index_b64Char (b1 % 4 * 16) (by omega)]
    simp only [List.cons.injEq, and_true]
    omega
  | case3 b1 b2 =>
    have h1 : b1 < 256 := hb b1 (by simp)
    have h2 : b2 < 256 := hb b2 (by simp)
    simp only [b64Encode, b64Decode]
    rw [if_neg (b64Char_ne_pad (b2 % 16 * 4) (by omega))]
    simp only [if_true]
    rw [b64Index_b64Char (b1 / 4) (by omega), b64Index_b64Char (b1 % 4 * 16 + b2 / 16) (by omega),
      b64Index_b64Char (b2 % 16 * 4) (by omega)]
    simp only [List.cons.injEq, and_true]
    omega
  | case4 b1 b2 b3 rest ih =>
    have h1 : b1 < 256 := hb b1 (by simp)
    have h2 : b2 < 256 := hb b2 (by simp)
    have h3 : b3 < 256 := hb b3 (by simp)
    have hrest : ∀ b ∈ rest, b < 256 := fun b hm => hb b (by simp [hm])
    simp only [b64Encode, b64Decode]
    rw [if_neg (b64Char_ne_pad (b2 % 16 * 4 + b3 / 64) (by omega)),
      if_neg (b64Char_ne_pad (b3 % 64) (by omega))]
    rw [b64Index_b64Char (b1 / 4) (by omega), b64Index_b64Char (b1 % 4 * 16 + b2 / 16) (by omega),
      b64Index_b64Char (b2 % 16 * 4 + b3 / 64) (by omega), b64Index_b64Char (b3 % 64) (by omega)]
    rw [ih hrest]
    simp only [List.cons.injEq, and_true]
    omega

/-- C5: for every byte content — NUL bytes, non-ASCII bytes and quote
characters included — writing it to a remote path via WriteFile and
reading that path back via ReadFile yields the identical bytes, because
the base64 transfer encoding composed with the remote decoding is the
identity on content. -/
theorem writeFile_readFile_roundtrip :
    ∀ (fs : RemoteFS) (path : String) (content : List Nat),
      (∀ b ∈ content, b < 256) →
      b64Decode (b64Encode content) = content ∧
      readFileFS (writeFileFS fs path content) path = some content := by
  intro fs path content hb
  have hrt := b64_roundtrip content hb
  refine ⟨hrt, ?_⟩
  unfold readFileFS writeFileFS execWriteCmd
  simp [hrt]

/-- C5 witness: the round trip on a concrete content containing a NUL
byte, a quote and a non-ASCII byte. -/
theorem writeFile_readFile_roundtrip_witness :
    readFileFS (writeFileFS emptyFS pathW contentW) pathW = some contentW :=
  (writeFile_readFile_roundtrip emptyFS pathW contentW (by decide)).2

/-- C6 counterexample: for a concrete upload destination, both remote
commands WriteFile issues — the directory creation and the file write —
run through Exec and carry no timeout bound at all, refuting the claim
that every blocking remote operation of the file-upload path is
timeout-bounded. -/
theorem writeFile_ops_have_no_timeout_counterexample :
    SSHOp.mk (mkdirCmd (dirOf pathW)) none ∈ writeFileOps pathW contentW ∧
    SSHOp.mk (transferCmd pathW contentW) none ∈ writeFileOps pathW contentW ∧
    ∀ op ∈ writeFileOps pathW contentW, op.timeout = none := by decide

/-- C6 amended: operations that go through ExecWithTimeout are
timeout-bounded — past the bound the in-flight process is forcibly killed
and a timeout error is returned together with the partial output captured
so far — but the directory-creation and file-write commands WriteFile
issues go through Exec and run under no timeout bound. -/
theorem execWithTimeout_bounded_but_writeFile_unbounded :
    (∀ (dur : Nat) (fullOut partOut : String) (remoteErr : Option String) (t : Nat),
      t < dur →
      execWithTimeout dur fullOut partOut remoteErr t
        = ⟨partOut, some (timeoutMsg t), true⟩) ∧
    (∀ (path : String) (content : List Nat) (op : SSHOp),
      op ∈ writeFileOps path content → op.timeout = none) := by
  constructor
  · intro dur fullOut partOut remoteErr t hlt
    unfold execWithTimeout
    rw [if_neg (by omega)]
  · intro path content op hm
    unfold writeFileOps at hm
    rcases List.mem_append.mp hm with h | h
    · split at h <;> simp at h <;> simp [h]
    · simp at h
      simp [h]

/-- Reaching the first successful probe: if probes before `k + m` fail and
probe `k + m` succeeds, and its start time stays under the deadline, the
loop returns success at that probe's completion time. -/
theorem waitAux_first_success (env : ProbeEnv) (d : Nat) :
    ∀ (m k t : Nat) (e : Option String),
      (∀ j, j < m → ¬ probeOK env (k + j)) → probeOK env (k + m) →
      t + offSum env k m < d →
      waitAux env d k t e
        = ⟨true, t + offSum env k m + env.probeDur (k + m), none⟩ := by
  intro m
  induction m with
  | zero =>
    intro k t e _ hok hlt
    rw [waitAux]
    rw [if_pos (by simpa [offSum] using hlt)]
    rw [if_pos (by simpa using hok)]
    simp [offSum]
  | succ m ih =>
    intro k t e hpre hok hlt
    have hnk : ¬ probeOK env k := by simpa using hpre 0 (Nat.succ_pos m)
    have ht : t < d := by
      have : t ≤ t + offSum env k (m + 1) := Nat.le_add_right _ _
      omega
    rw [waitAux, if_pos ht, if_neg hnk]
    have hpre2 : ∀ j, j < m → ¬ probeOK env (k + 1 + j) := by
      intro j hj
      have := hpre (j + 1) (by omega)
      have harith : k + (j + 1) = k + 1 + j := by omega
      rwa [harith] at this
    have hok2 : probeOK env (k + 1 + m) := by
      have harith : k + (m + 1) = k + 1 + m := by omega
      rwa [harith] at hok
    have hlt2 : t + env.probeDur k + 3 + offSum env (k + 1) m < d := by
      have : offSum env k (m + 1) = env.probeDur k + 3 + offSum env (k + 1) m := rfl
      omega
    rw [ih (k + 1) (t + env.probeDur k + 3) (env.probeErr k) hpre2 hok2 hlt2]
    have harith : k + 1 + m = k + (m + 1) := by omega
    rw [harith]
    have harith2 : t + env.probeDur k + 3 + offSum env (k + 1) m
        = t + offSum env k (m + 1) := by
      have : offSum env k (m + 1) = env.probeDur k + 3 + offSum env (k + 1) m := rfl
      omega
    rw [harith2]

/-- When no probe ever succeeds the loop reports failure, finishes no
earlier than the deadline, and — once at least one probe has run — holds
the most recent probe error when all probes carry errors. -/
theorem waitAux_never_success (env : ProbeEnv) (d : Nat)
    (hf : ∀ k, ¬ probeOK env k) :
    ∀ (n k t : Nat) (e : Option String), d - t ≤ n →
      (waitAux env d k t e).success = false ∧
      (waitAux env d k t e).finish ≥ d ∧
      ((e.isSome = true ∨ t < d) → (∀ j, (env.probeErr j).isSome = true) →
        ((waitAux env d k t e).lastErr).isSome = true) := by
  intro n
  induction n with
  | zero =>
    intro k t e hn
    have htd : ¬ t < d := by omega
    rw [waitAux, if_neg htd]
    refine ⟨rfl, by simpa using Nat.le_of_not_lt htd, ?_⟩
    intro hor _
    rcases hor with hsome | hlt
    · simpa using hsome
    · exact absurd hlt htd
  | succ n ih =>
    intro k t e hn
    by_cases htd : t < d
    · rw [waitAux, if_pos htd, if_neg (hf k)]
      have hrec := ih (k + 1) (t + env.probeDur k + 3) (env.probeErr k) (by omega)
      refine ⟨hrec.1, hrec.2.1, ?_⟩
      intro _ hall
      exact hrec.2.2 (Or.inl (hall k)) hall
    · rw [waitAux, if_neg htd]
      refine ⟨rfl, by simpa using Nat.le_of_not_lt htd, ?_⟩
      intro hor _
      rcases hor with hsome | hlt
      · simpa using hsome
      · exact absurd hlt htd

/-- C7: if the first successful reachability probe completes before the
deadline, WaitReachable returns success at that completion time, strictly
before the bound elapses; if no probe ever succeeds, it returns the
unreachable error only at or after the full bound, and when every probe
carries an underlying error the message wraps the last such error. -/
theorem waitReachable_timing :
    ∀ (env : ProbeEnv) (vm : String) (tBound : Nat),
      (∀ m, (∀ j, j < m → ¬ probeOK env j) → probeOK env m →
        offSum env 0 m + env.probeDur m < tBound →
        waitReachable env vm tBound = (Except.ok (), offSum env 0 m + env.probeDur m) ∧
        offSum env 0 m + env.probeDur m < tBound) ∧
      ((∀ k, ¬ probeOK env k) →
        (waitReachable env vm tBound).2 ≥ tBound ∧
        (∃ e, (waitReachable env vm tBound).1 = Except.error (unreachableMsg vm tBound e)) ∧
        (0 < tBound → (∀ j, (env.probeErr j).isSome = true) →
          ∃ s, (waitReachable env vm tBound).1
            = Except.error (unreachableMsg vm tBound (some s)))) := by
  intro env vm tBound
  constructor
  · intro m hpre hok hlt
    have hz : (0 : Nat) + offSum env 0 m < tBound := by omega
    have hrun := waitAux_first_success env tBound m 0 0 none
      (by intro j hj; simpa using hpre j hj) (by simpa using hok) hz
    unfold waitReachable
    rw [hrun]
    simp
    omega
  · intro hf
    have hrun := waitAux_never_success env tBound hf tBound 0 0 none (by omega)
    unfold waitReachable
    rw [if_neg (by simp [hrun.1])]
    refine ⟨hrun.2.1, ⟨(waitAux env tBound 0 0 none).lastErr, rfl⟩, ?_⟩
    intro htpos hall
    have hsome := hrun.2.2 (Or.inr htpos) hall
    rcases hopt : (waitAux env tBound 0 0 none).lastErr with _ | s
    · rw [hopt] at hsome
      simp at hsome
    · exact ⟨s, by simp [hopt]⟩

/-- C7 witness: with probes that answer ready in one second the call
returns success at time 1, before a 60-second bound; with probes that
always error, a 10-second bound yields an unreachable error no earlier
than 10, wrapping a probe error. -/
theorem waitReachable_timing_witness :
    waitReachable penvGood vmW 60 = (Except.ok (), offSum penvGood 0 0 + penvGood.probeDur 0) ∧
    (waitReachable penvBad vmW 10).2 ≥ 10 ∧
    (∃ s, (waitReachable penvBad vmW 10).1
      = Except.error (unreachableMsg vmW 10 (some s))) := by
  have hgood := ((waitReachable_timing penvGood vmW 60).1 0
    (by intro j hj; omega) (by constructor <;> decide) (by decide)).1
  have hbadAll : ∀ k, ¬ probeOK penvBad k := by
    intro k hk
    exact absurd hk.1 (by simp [penvBad])
  have hbad := (waitReachable_timing penvBad vmW 10).2 hbadAll
  exact ⟨hgood, hbad.1, hbad.2.2 (by decide) (fun _ => rfl)⟩

/-- C6 amended witness: a concrete ExecWithTimeout past its bound returns
the timeout error, kills the process and keeps the partial output, and a
concrete WriteFile operation runs with no bound. -/
theorem execWithTimeout_bounded_but_writeFile_unbounded_witness :
    execWithTimeout 10 keyW errW none 3 = ⟨errW, some (timeoutMsg 3), true⟩ ∧
    (SSHOp.mk (transferCmd pathW contentW) none).timeout = none :=
  ⟨execWithTimeout_bounded_but_writeFile_unbounded.1 10 keyW errW none 3 (by decide),
    execWithTimeout_bounded_but_writeFile_unbounded.2 pathW contentW
      (SSHOp.mk (transferCmd pathW contentW) none)
      (by decide)⟩

/-- Characters are determined by their code points. -/
theorem char_toNat_injective : Function.Injective Char.toNat := by
  intro a b h
  exact Char.eq_of_val_eq (UInt32.ext h)

/-- Strings are determined by their character lists. -/
theorem string_data_injective : Function.Injective String.data := by
  intro a b h
  cases a
  cases b
  exact congrArg String.mk h

/-- The byte-stream view of a Go string is injective. -/
theorem strBytes_injective : Function.Injective strBytes := by
  intro a b h
  exact string_data_injective (List.map_injective_iff.mpr char_toNat_injective h)

/-- An image-store lookup away from the fresh identifier is unchanged by
any commit-resource call trace. -/
theorem applyCalls_preserves (fresh c : String) (hne : c ≠ fresh) :
    ∀ (tr : List CommitCall) (imgs : String → Option String),
      applyCalls fresh imgs tr c = imgs c := by
  intro tr
  induction tr with
  | nil => intro imgs; rfl
  | cons e rest ih =>
    intro imgs
    have hstep : applyCall fresh imgs e c = imgs c := by
      cases e with
      | apiCommitVM vm kp => simp [applyCall, hne]
      | apiGetSSHKey vm => rfl
      | sshExec cmd => rfl
    calc applyCalls fresh imgs (e :: rest) c
        = applyCalls fresh (applyCall fresh imgs e) rest c := rfl
      _ = applyCall fresh imgs e c := ih (applyCall fresh imgs e)
      _ = imgs c := hstep

/-- C3: for every commit operation — initial creation and trigger-driven
re-commit — the coordinator's call trace is exactly the flush attempt
followed by the remote commit call, the flush attempt never contains the
commit call, the sync command is actually run whenever credentials and
client setup are available, and the operation's result depends only on
the remote commit result, so no failure in the flush stage can prevent
the commit invocation. -/
theorem commit_flush_before_commit :
    ∀ (env : CommitEnv) (vm : String) (kp : Bool),
      (commitCreate env vm kp).2 = syncBeforeCommit env vm ++ [CommitCall.apiCommitVM vm kp] ∧
      (commitUpdate env vm kp).2 = syncBeforeCommit env vm ++ [CommitCall.apiCommitVM vm kp] ∧
      (∀ e ∈ syncBeforeCommit env vm, e ≠ CommitCall.apiCommitVM vm kp) ∧
      ((∃ k, env.getKey vm = Except.ok k) → env.clientSetup = Except.ok () →
        CommitCall.sshExec syncCmdStr ∈ (commitCreate env vm kp).2 ∧
        CommitCall.sshExec syncCmdStr ∈ (commitUpdate env vm kp).2) ∧
      (∀ env2 : CommitEnv, env2.commitResult = env.commitResult →
        (commitCreate env2 vm kp).1 = (commitCreate env vm kp).1 ∧
        (commitUpdate env2 vm kp).1 = (commitUpdate env vm kp).1) := by
  intro env vm kp
  refine ⟨?_, ?_, ?_, ?_, ?_⟩
  · cases h : env.commitResult <;> simp [commitCreate, h]
  · cases h : env.commitResult <;> simp [commitUpdate, h]
  · intro e he
    unfold syncBeforeCommit at he
    cases hk : env.getKey vm <;> rw [hk] at he
    · simp at he
      simp [he]
    · cases hc : env.clientSetup <;> rw [hc] at he <;> simp at he
      · simp [he]
      · rcases he with he | he <;> simp [he]
  · rintro ⟨k, hk⟩ hc
    have hsync : syncBeforeCommit env vm
        = [CommitCall.apiGetSSHKey vm, CommitCall.sshExec syncCmdStr] := by
      unfold syncBeforeCommit
      rw [hk, hc]
    constructor
    · cases h : env.commitResult <;> simp [commitCreate, h, hsync]
    · cases h : env.commitResult <;> simp [commitUpdate, h, hsync]
  · intro env2 h2
    constructor
    · unfold commitCreate
      rw [h2]
      cases h : env.commitResult <;> simp
    · unfold commitUpdate
      rw [h2]
      cases h : env.commitResult <;> simp

/-- C3 witness: with working credentials the sync command is run before
the commit on both paths, and an environment whose flush stage is broken
(credential fetch fails) still produces the same commit result as the
fully working environment. -/
theorem commit_flush_before_commit_witness :
    (CommitCall.sshExec syncCmdStr ∈ (commitCreate cenvOK vmW true).2 ∧
      CommitCall.sshExec syncCmdStr ∈ (commitUpdate cenvOK vmW true).2) ∧
    (commitCreate cenvNoKey vmW true).1 = (commitCreate cenvOK vmW true).1 :=
  ⟨(commit_flush_before_commit cenvOK vmW true).2.2.2.1 ⟨keyW, rfl⟩ rfl,
    ((commit_flush_before_commit cenvOK vmW true).2.2.2.2 cenvNoKey rfl).1⟩

/-- C9: destroying a commit resource performs no remote call of any kind,
removes only the local state record, and leaves every image in the remote
store untouched; moreover no commit-resource operation (create, update or
delete) ever deletes or mutates an existing image — a commit call only
adds a fresh one. -/
theorem commit_delete_no_remote_effect :
    ∀ (st : Option CommitRecord) (imgs : String → Option String) (fresh c : String),
      (commitDelete st).2 = [] ∧
      (commitDelete st).1 = none ∧
      applyCalls fresh imgs (commitDelete st).2 c = imgs c ∧
      (∀ env vm kp, c ≠ fresh →
        applyCalls fresh imgs (commitCreate env vm kp).2 c = imgs c ∧
        applyCalls fresh imgs (commitUpdate env vm kp).2 c = imgs c) := by
  intro st imgs fresh c
  refine ⟨rfl, rfl, rfl, ?_⟩
  intro env vm kp hne
  exact ⟨applyCalls_preserves fresh c hne _ imgs, applyCalls_preserves fresh c hne _ imgs⟩

/-- C9 witness: concrete delete and create leave a concrete existing
image in place. -/
theorem commit_delete_no_remote_effect_witness :
    applyCalls cidW (fun _ => none) (commitDelete none).2 vmW = none ∧
    applyCalls cidW (fun _ => none) (commitCreate cenvOK vmW true).2 vmW = none :=
  ⟨(commit_delete_no_remote_effect none (fun _ => none) cidW vmW).2.2.1,
    ((commit_delete_no_remote_effect none (fun _ => none) cidW vmW).2.2.2 cenvOK vmW true
      (by decide)).1⟩

/-- C8 counterexample: two distinct VM identifiers sharing their first 12
characters receive the same ephemeral key path, refuting the claim that
distinct identifiers always get distinct paths. -/
theorem keyPath_collision_on_shared_prefix :
    vmColl1 ≠ vmColl2 ∧ keyPath tmpD vmColl1 = keyPath tmpD vmColl2 := by
  constructor
  · decide
  · rfl

/-- C8 amended: identifiers whose 12-character truncations differ — in
particular any two distinct identifiers of length at most 12, or ones
differing within their first 12 characters — receive distinct per-VM key
paths, so such operations never share, overwrite or delete each other's
credential material. -/
theorem keyPath_distinct_of_truncVM_ne :
    ∀ tmp a b : String, truncVM a ≠ truncVM b → keyPath tmp a ≠ keyPath tmp b := by
  intro tmp a b hne heq
  apply hne
  have hdata := congrArg String.data heq
  unfold keyPath at hdata
  simp only [String.data_append] at hdata
  have h1 := List.append_cancel_right hdata
  have h2 := List.append_cancel_left h1
  exact string_data_injective h2

/-- C8 amended witness: a concrete pair differing within the first 12
characters gets distinct key paths. -/
theorem keyPath_distinct_of_truncVM_ne_witness :
    truncVM vmD1 ≠ truncVM vmD2 ∧ keyPath tmpD vmD1 ≠ keyPath tmpD vmD2 :=
  ⟨by decide, keyPath_distinct_of_truncVM_ne tmpD vmD1 vmD2 (by decide)⟩

/-- A file event is never a command execution. -/
theorem fileEvent_ne_execCmd (f : FileBlock) (cmd : String) :
    fileEvent f ≠ RemoteCall.execCmd cmd := by
  unfold fileEvent
  split <;> simp

/-- The Create file loop processes a list of good blocks completely,
emitting one transfer call per block in order. -/
theorem runFilesCreate_all_good (env : ProvisionEnv) :
    ∀ (fl : List FileBlock) (i : Nat), (∀ f ∈ fl, goodF env f) →
      runFilesCreate env fl i = (Except.ok (), fl.map fileEvent) := by
  intro fl
  induction fl with
  | nil => intro i _; rfl
  | cons f rest ih =>
    intro i hall
    rcases hall f (by simp) with ⟨hs, hu⟩ | ⟨hs, hc, hw⟩
    · simp only [runFilesCreate, hs, hu, if_true]
      rw [ih (i + 1) (fun g hg => hall g (by simp [hg]))]
      simp [fileEvent, hs]
    · simp only [runFilesCreate, hs, hc, hw, if_true, Bool.false_eq_true, if_false]
      rw [ih (i + 1) (fun g hg => hall g (by simp [hg]))]
      simp [fileEvent, hs]

/-- The Create file loop stops at the first block with neither field set,
after processing the good blocks before it, and reports the configuration
error naming that block's position. -/
theorem runFilesCreate_config_stop (env : ProvisionEnv) (bad : FileBlock)
    (suf : List FileBlock) (hbs : optSet bad.source = false)
    (hbc : optSet bad.content = false) :
    ∀ (pre : List FileBlock) (i : Nat), (∀ f ∈ pre, goodF env f) →
      runFilesCreate env (pre ++ bad :: suf) i
        = (Except.error (configErrSummary (i + pre.length), configErrDetail),
            pre.map fileEvent) := by
  intro pre
  induction pre with
  | nil =>
    intro i _
    simp only [List.nil_append, runFilesCreate, hbs, hbc, Bool.false_eq_true, if_false]
    simp
  | cons f rest ih =>
    intro i hall
    rcases hall f (by simp) with ⟨hs, hu⟩ | ⟨hs, hc, hw⟩
    · simp only [List.cons_append, runFilesCreate, hs, hu, if_true]
      simp only [List.append_eq]
      rw [ih (i + 1) (fun g hg => hall g (by simp [hg]))]
      have harith : i + 1 + rest.length = i + (f :: rest).length := by
        simp
        omega
      rw [harith]
      simp [fileEvent, hs]
    · simp only [List.cons_append, runFilesCreate, hs, hc, hw, if_true,
        Bool.false_eq_true, if_false]
      simp only [List.append_eq]
      rw [ih (i + 1) (fun g hg => hall g (by simp [hg]))]
      have harith : i + 1 + rest.length = i + (f :: rest).length := by
        simp
        omega
      rw [harith]
      simp [fileEvent, hs]

/-- A good block passes the loop guard. -/
theorem goodF_guard (env : ProvisionEnv) (f : FileBlock) (h : goodF env f) :
    (optSet f.source || optSet f.content) = true := by
  rcases h with ⟨hs, _⟩ | ⟨_, hc, _⟩
  · simp [hs]
  · simp [hc]

/-- The Update file loop processes good blocks and silently skips blocks
with neither field set, emitting transfer calls only for the kept
blocks. -/
theorem runFilesUpdate_pass (env : ProvisionEnv) :
    ∀ fl : List FileBlock,
      (∀ f ∈ fl, goodF env f ∨ (optSet f.source = false ∧ optSet f.content = false)) →
      runFilesUpdate env fl
        = (Except.ok (),
            (fl.filter (fun f => optSet f.source || optSet f.content)).map fileEvent) := by
  intro fl
  induction fl with
  | nil => intro _; rfl
  | cons f rest ih =>
    intro hall
    rcases hall f (by simp) with (⟨hs, hu⟩ | ⟨hs, hc, hw⟩) | ⟨hs, hc⟩
    · simp only [runFilesUpdate, hs, hu, if_true]
      rw [ih (fun g hg => hall g (by simp [hg]))]
      simp [List.filter_cons, fileEvent, hs]
    · simp only [runFilesUpdate, hs, hc, hw, if_true, Bool.false_eq_true, if_false]
      rw [ih (fun g hg => hall g (by simp [hg]))]
      simp [List.filter_cons, fileEvent, hs, hc]
    · simp only [runFilesUpdate, hs, hc, Bool.false_eq_true, if_false]
      rw [ih (fun g hg => hall g (by simp [hg]))]
      simp [List.filter_cons, hs, hc]

/-- The command loop runs every command in order when all of them exit
cleanly. -/
theorem runCmds_all_ok (env : ProvisionEnv) :
    ∀ (cs : List String) (i : Nat),
      (∀ j, j < cs.length → (env.cmdExec (i + j)).2 = none) →
      runCmds env cs i = (Except.ok (), cs.map RemoteCall.execCmd) := by
  intro cs
  induction cs with
  | nil => intro i _; rfl
  | cons c rest ih =>
    intro i hall
    have h0 : (env.cmdExec i).2 = none := by simpa using hall 0 (by simp)
    rcases hcall : env.cmdExec i with ⟨out, me⟩
    rw [hcall] at h0
    simp only at h0
    subst h0
    simp only [runCmds, hcall]
    rw [ih (i + 1) (fun j hj => by
      have := hall (j + 1) (by simpa using Nat.succ_lt_succ hj)
      rwa [show i + (j + 1) = i + 1 + j by omega] at this)]
    simp [fileEvent]

/-- The command loop stops at the first failing command, having run
exactly the commands up to and including it, and reports the failure
naming that command's position with the truncated output. -/
theorem runCmds_first_fail (env : ProvisionEnv) (c : String) (suf : List String)
    (out e : String) :
    ∀ (pre : List String) (i : Nat),
      (∀ j, j < pre.length → (env.cmdExec (i + j)).2 = none) →
      env.cmdExec (i + pre.length) = (out, some e) →
      runCmds env (pre ++ c :: suf) i
        = (Except.error (cmdFailSummary (i + pre.length) c, cmdFailDetail e out),
            (pre ++ [c]).map RemoteCall.execCmd) := by
  intro pre
  induction pre with
  | nil =>
    intro i _ hfail
    simp only [List.nil_append, runCmds]
    rw [show i + [].length = i by simp] at hfail
    rw [hfail]
    simp
  | cons c0 rest ih =>
    intro i hall hfail
    have h0 : (env.cmdExec i).2 = none := by simpa using hall 0 (by simp)
    rcases hcall : env.cmdExec i with ⟨out0, me⟩
    rw [hcall] at h0
    simp only at h0
    subst h0
    have harith : i + 1 + rest.length = i + (c0 :: rest).length := by
      simp
      omega
    have hfail2 : env.cmdExec (i + 1 + rest.length) = (out, some e) := by
      rw [harith]
      exact hfail
    simp only [List.cons_append, runCmds, hcall]
    simp only [List.append_eq]
    rw [ih (i + 1) (fun j hj => by
        have := hall (j + 1) (by simpa using Nat.succ_lt_succ hj)
        rwa [show i + (j + 1) = i + 1 + j by omega] at this)
      hfail2]
    rw [harith]
    simp

/-- C2 counterexample: with a fully working environment, a declaration
whose only file block has both source and content set completes without
any configuration error (the source wins), and a declaration whose only
file block has neither set does produce the configuration error — but
only after the SSH-key fetch and the reachability probe have already been
made, so the remote-call trace is not empty.  Both refute the claim that
such declarations fail before any remote call. -/
theorem create_misconfigured_block_counterexample :
    pOk (createRun penvOK emptyFsys planBoth).1 = true ∧
    (createRun penvOK emptyFsys planBad).1
      = POutcome.fail (configErrSummary 0) configErrDetail ∧
    RemoteCall.getSSHKey vmW ∈ (createRun penvOK emptyFsys planBad).2 ∧
    RemoteCall.waitReach vmW ∈ (createRun penvOK emptyFsys planBad).2 := by
  refine ⟨?_, by decide, by decide, by decide⟩
  decide

/-- C2 amended: on the Create path, a file block with neither source nor
content set produces the configuration error naming its 1-based position
when the file loop reaches it — that is, after the SSH-key fetch, the
reachability wait and the uploads of the blocks before it — and nothing
after it runs: the trace is exactly those calls, and in particular no
command is ever executed.  A block with both fields set is not an error:
the source branch wins. -/
theorem create_config_error_at_loop_position :
    ∀ (env : ProvisionEnv) (fsys : String → Option (List Nat)) (p : ProvisionPlan)
      (pre suf : List FileBlock) (bad : FileBlock) (k : String),
      p.files = some (pre ++ bad :: suf) →
      optSet bad.source = false → optSet bad.content = false →
      env.getKey p.vmID = Except.ok k →
      env.clientSetup = Except.ok () → env.reach = Except.ok () →
      (∀ f ∈ pre, goodF env f) →
      createRun env fsys p
        = (POutcome.fail (configErrSummary pre.length) configErrDetail,
            RemoteCall.getSSHKey p.vmID :: RemoteCall.waitReach p.vmID :: pre.map fileEvent) ∧
      (∀ cmd, RemoteCall.execCmd cmd ∉ (createRun env fsys p).2) := by
  intro env fsys p pre suf bad k hfiles hbs hbc hk hcs hr hpre
  have hloop := runFilesCreate_config_stop env bad suf hbs hbc pre 0 hpre
  have hmain : createRun env fsys p
      = (POutcome.fail (configErrSummary pre.length) configErrDetail,
          RemoteCall.getSSHKey p.vmID :: RemoteCall.waitReach p.vmID :: pre.map fileEvent) := by
    unfold createRun
    rw [hk, hcs, hr, hfiles]
    simp only [runFilesPhase]
    rw [hloop]
    simp
  refine ⟨hmain, ?_⟩
  intro cmd hmem
  rw [hmain] at hmem
  simp only [List.mem_cons, List.mem_map] at hmem
  rcases hmem with h | h | ⟨f, _, hf⟩
  · exact absurd h (by simp)
  · exact absurd h (by simp)
  · exact fileEvent_ne_execCmd f cmd hf

/-- C2 amended witness: the concrete plan whose second block is
misconfigured fails naming block 2, with exactly the key fetch, the
reachability wait and the first block's upload in the trace. -/
theorem create_config_error_at_loop_position_witness :
    createRun penvOK emptyFsys planBadSecond
      = (POutcome.fail (configErrSummary 1) configErrDetail,
          RemoteCall.getSSHKey vmW :: RemoteCall.waitReach vmW
            :: [inlineBlock].map fileEvent) ∧
    RemoteCall.execCmd cmdA ∉ (createRun penvOK emptyFsys planBadSecond).2 := by
  have h := create_config_error_at_loop_position penvOK emptyFsys planBadSecond
    [inlineBlock] [] badBlock keyW rfl (by decide) (by decide) rfl rfl rfl
    (by intro f hf
        simp at hf
        subst hf
        right
        refine ⟨by decide, by decide, rfl⟩)
  exact ⟨h.1, h.2 cmdA⟩

/-- C4: during a provisioning run whose earlier stages succeed, commands
execute in declared order; when the command at 1-based position i is the
first to exit non-zero, the run stops with a fatal error whose summary
names position i (with the command truncated to 80 characters) and whose
detail carries the captured output truncated to 2000 characters, and the
trace contains exactly the commands up to and including position i — none
after it. -/
theorem provisioning_commands_stop_at_first_failure :
    ∀ (env : ProvisionEnv) (fsys : String → Option (List Nat)) (p : ProvisionPlan)
      (pre suf : List String) (c : String) (out e k : String),
      p.commands = some (pre ++ c :: suf) →
      (match p.files with
        | none => True
        | some fl => ∀ f ∈ fl, goodF env f) →
      env.getKey p.vmID = Except.ok k →
      env.clientSetup = Except.ok () → env.reach = Except.ok () →
      (∀ j, j < pre.length → (env.cmdExec j).2 = none) →
      env.cmdExec pre.length = (out, some e) →
      createRun env fsys p
        = (POutcome.fail (cmdFailSummary pre.length c) (cmdFailDetail e out),
            RemoteCall.getSSHKey p.vmID :: RemoteCall.waitReach p.vmID
              :: ((p.files.getD []).map fileEvent
                ++ (pre ++ [c]).map RemoteCall.execCmd)) := by
  intro env fsys p pre suf c out e k hcmds hfgood hk hcs hr hpre hfail
  have hcmdrun := runCmds_first_fail env c suf out e pre 0
    (fun j hj => by simpa using hpre j hj) (by simpa using hfail)
  have hsum : (0 : Nat) + pre.length = pre.length := by omega
  rw [hsum] at hcmdrun
  unfold createRun
  rw [hk, hcs, hr]
  cases hfl : p.files with
  | none =>
    simp only [runFilesPhase]
    rw [hcmds]
    simp only [runCmdsPhase]
    rw [hcmdrun]
    simp
  | some fl =>
    rw [hfl] at hfgood
    simp only [runFilesPhase]
    rw [runFilesCreate_all_good env fl 0 hfgood, hcmds]
    simp only [runCmdsPhase]
    rw [hcmdrun]
    simp

/-- C4 witness: with three declared commands of which the second fails
with output `hi`, the run reports `Command 2 failed` with that output and
executes commands 1 and 2 only. -/
theorem provisioning_commands_stop_at_first_failure_witness :
    createRun penvCmdFail emptyFsys planCmds
      = (POutcome.fail (cmdFailSummary 1 cmdB) (cmdFailDetail errW outW),
          RemoteCall.getSSHKey vmW :: RemoteCall.waitReach vmW
            :: [RemoteCall.execCmd cmdA, RemoteCall.execCmd cmdB]) := by
  have h := provisioning_commands_stop_at_first_failure penvCmdFail emptyFsys planCmds
    [cmdA] [cmdC] cmdB outW errW keyW rfl trivial rfl rfl rfl
    (by decide) (by decide)
  simpa using h

/-- C10: for the same declaration whose file list contains a block with
neither source nor content set, the Create path rejects it with the
configuration error naming its position, while the Update
(re-provisioning) path silently skips the block — no error is raised and
no transfer call is made for it — so the two paths differ in error
behavior on the same file list. -/
theorem update_skips_block_that_create_rejects :
    ∀ (env : ProvisionEnv) (fsys : String → Option (List Nat)) (p : ProvisionPlan)
      (pre suf : List FileBlock) (bad : FileBlock) (k : String),
      p.files = some (pre ++ bad :: suf) →
      optSet bad.source = false → optSet bad.content = false →
      env.getKey p.vmID = Except.ok k →
      env.clientSetup = Except.ok () → env.reach = Except.ok () →
      (∀ f ∈ pre, goodF env f) → (∀ f ∈ suf, goodF env f) →
      p.commands = none →
      (createRun env fsys p).1
        = POutcome.fail (configErrSummary pre.length) configErrDetail ∧
      updateRun env fsys p
        = (POutcome.ok (computeID fsys p),
            RemoteCall.getSSHKey p.vmID :: RemoteCall.waitReach p.vmID
              :: (pre ++ suf).map fileEvent) := by
  intro env fsys p pre suf bad k hfiles hbs hbc hk hcs hr hpre hsuf hcmds
  constructor
  · exact congrArg Prod.fst
      (create_config_error_at_loop_position env fsys p pre suf bad k hfiles hbs hbc
        hk hcs hr hpre).1
  · have hpass : ∀ f ∈ pre ++ bad :: suf,
        goodF env f ∨ (optSet f.source = false ∧ optSet f.content = false) := by
      intro f hf
      rcases List.mem_append.mp hf with h | h
      · exact Or.inl (hpre f h)
      · rcases List.mem_cons.mp h with h | h
        · subst h
          exact Or.inr ⟨hbs, hbc⟩
        · exact Or.inl (hsuf f h)
    have hfilter : (pre ++ bad :: suf).filter
        (fun f => optSet f.source || optSet f.content) = pre ++ suf := by
      rw [List.filter_append, List.filter_cons]
      have hbad : (optSet bad.source || optSet bad.content) = false := by
        simp [hbs, hbc]
      rw [hbad]
      simp only [Bool.false_eq_true, if_false]
      rw [List.filter_eq_self.mpr (fun f hf => goodF_guard env f (hpre f hf)),
        List.filter_eq_self.mpr (fun f hf => goodF_guard env f (hsuf f hf))]
    have hloop := runFilesUpdate_pass env (pre ++ bad :: suf) hpass
    rw [hfilter] at hloop
    unfold updateRun
    rw [hk, hcs, hr, hfiles]
    simp only [runFilesPhase]
    rw [hloop, hcmds]
    simp only [runCmdsPhase]
    simp

/-- C10 witness: the concrete two-block plan (good inline block, then a
block with neither field) fails on Create naming block 2 and succeeds on
Update, writing only the first block. -/
theorem update_skips_block_that_create_rejects_witness :
    (createRun penvOK emptyFsys planBadSecond).1
      = POutcome.fail (configErrSummary 1) configErrDetail ∧
    updateRun penvOK emptyFsys planBadSecond
      = (POutcome.ok (computeID emptyFsys planBadSecond),
          RemoteCall.getSSHKey vmW :: RemoteCall.waitReach vmW
            :: ([inlineBlock] ++ []).map fileEvent) := by
  exact update_skips_block_that_create_rejects penvOK emptyFsys planBadSecond
    [inlineBlock] [] badBlock keyW rfl (by decide) (by decide) rfl rfl rfl
    (by intro f hf
        simp at hf
        subst hf
        right
        refine ⟨by decide, by decide, rfl⟩)
    (by intro f hf; simp at hf)
    rfl

/-! ### Fingerprint shape: the identifier is a 16-character string -/

/-- A compression round preserves the length of the working state. -/
theorem compressRound_length (st : List Nat) (k wi : Nat) :
    (compressRound st k wi).length = st.length := by
  unfold compressRound
  split
  · rfl
  · rfl

/-- Folding compression rounds preserves the state length. -/
theorem foldl_compressRound_length (idx : List Nat) (ws : Array Nat) :
    ∀ st : List Nat,
      (idx.foldl (fun s i => compressRound s (k256.getD i 0) (ws.getD i 0)) st).length
        = st.length := by
  induction idx with
  | nil => intro st; rfl
  | cons i rest ih =>
    intro st
    calc (List.foldl _ (compressRound st (k256.getD i 0) (ws.getD i 0)) rest).length
        = (compressRound st (k256.getD i 0) (ws.getD i 0)).length := ih _
      _ = st.length := compressRound_length st _ _

/-- Processing a chunk preserves the hash-state length. -/
theorem processChunk_length (hs chunk : List Nat) :
    (processChunk hs chunk).length = hs.length := by
  unfold processChunk
  rw [List.length_zipWith, foldl_compressRound_length]
  simp

/-- Folding chunks preserves the hash-state length. -/
theorem foldl_processChunk_length (cs : List (List Nat)) :
    ∀ hs : List Nat, (cs.foldl processChunk hs).length = hs.length := by
  induction cs with
  | nil => intro hs; rfl
  | cons c rest ih =>
    intro hs
    calc (rest.foldl processChunk (processChunk hs c)).length
        = (processChunk hs c).length := ih _
      _ = hs.length := processChunk_length hs c

/-- Expanding each word to four bytes quadruples the length. -/
theorem flatMap_word_bytes_length (l : List Nat) :
    (l.flatMap (fun w => [w / 2 ^ 24 % 256, w / 2 ^ 16 % 256, w / 2 ^ 8 % 256, w % 256])).length
      = 4 * l.length := by
  induction l with
  | nil => rfl
  | cons w rest ih =>
    simp only [List.flatMap_cons, List.length_append, List.length_cons, List.length_nil, ih]
    omega

/-- The SHA-256 digest has 32 bytes. -/
theorem sha256_length (msg : List Nat) : (sha256 msg).length = 32 := by
  unfold sha256
  rw [flatMap_word_bytes_length, foldl_processChunk_length]
  rfl

/-- Hex encoding doubles the length. -/
theorem hexEncode_length (l : List Nat) : (hexEncode l).length = 2 * l.length := by
  induction l with
  | nil => rfl
  | cons b rest ih => simp [hexEncode, List.flatMap_cons] at ih ⊢; omega

/-- Every fingerprint is a 16-character string. -/
theorem computeID_data_length (fsys : String → Option (List Nat)) (p : ProvisionPlan) :
    (computeID fsys p).data.length = 16 := by
  unfold computeID
  show ((hexEncode (sha256 (hashInput fsys p))).take 16).length = 16
  rw [List.length_take, hexEncode_length, sha256_length]
  decide

/-- Code points are below 2^32. -/
theorem char_toNat_lt (c : Char) : c.toNat < 4294967296 := c.val.toNat_lt

/-- The base-2^32 fold of a character list is bounded by
(accumulator + 1) * 2^32 ^ length. -/
theorem foldl_base_bound :
    ∀ (l : List Char) (a : Nat),
      l.foldl (fun acc c => acc * 4294967296 + c.toNat) a
        < (a + 1) * 4294967296 ^ l.length := by
  intro l
  induction l with
  | nil => intro a; simpa using Nat.lt_succ_self a
  | cons c rest ih =>
    intro a
    have h1 := ih (a * 4294967296 + c.toNat)
    have hc := char_toNat_lt c
    have h2 : a * 4294967296 + c.toNat + 1 ≤ (a + 1) * 4294967296 := by omega
    calc List.foldl (fun acc c => acc * 4294967296 + c.toNat)
          (a * 4294967296 + c.toNat) rest
        < (a * 4294967296 + c.toNat + 1) * 4294967296 ^ rest.length := h1
      _ ≤ ((a + 1) * 4294967296) * 4294967296 ^ rest.length :=
          Nat.mul_le_mul_right _ h2
      _ = (a + 1) * 4294967296 ^ (c :: rest).length := by
          simp [List.length_cons, pow_succ]
          ring

/-- The base-2^32 fold determines the accumulator and the character list
when the lengths agree. -/
theorem foldl_base_inj :
    ∀ (l1 l2 : List Char) (a1 a2 : Nat), l1.length = l2.length →
      l1.foldl (fun acc c => acc * 4294967296 + c.toNat) a1
        = l2.foldl (fun acc c => acc * 4294967296 + c.toNat) a2 →
      a1 = a2 ∧ l1 = l2 := by
  intro l1
  induction l1 with
  | nil =>
    intro l2 a1 a2 hlen heq
    cases l2 with
    | nil => exact ⟨heq, rfl⟩
    | cons c r => simp at hlen
  | cons c1 r1 ih =>
    intro l2 a1 a2 hlen heq
    cases l2 with
    | nil => simp at hlen
    | cons c2 r2 =>
      simp only [List.length_cons, Nat.succ.injEq] at hlen
      have hrec := ih r2 (a1 * 4294967296 + c1.toNat) (a2 * 4294967296 + c2.toNat)
        hlen heq
      have hb1 := char_toNat_lt c1
      have hb2 := char_toNat_lt c2
      have hacc := hrec.1
      have ha : a1 = a2 := by omega
      have hcn : c1.toNat = c2.toNat := by omega
      exact ⟨ha, by rw [char_toNat_injective hcn, hrec.2]⟩

/-- Pigeonhole: among the infinitely many single-command declarations the
16-character fingerprint must repeat — two declarations whose only
command differs share a fingerprint. -/
theorem computeID_collision :
    ∃ i j : Nat, i ≠ j ∧ computeID emptyFsys (cplan i) = computeID emptyFsys (cplan j) := by
  have hbound : ∀ n : Nat, fpVal (computeID emptyFsys (cplan n)) < 4294967296 ^ 16 := by
    intro n
    have h := foldl_base_bound (computeID emptyFsys (cplan n)).data 0
    rw [computeID_data_length] at h
    simpa using h
  obtain ⟨i, j, hne, heq⟩ := Finite.exists_ne_map_eq_of_infinite
    (fun n : Nat => (⟨fpVal (computeID emptyFsys (cplan n)), hbound n⟩ : Fin (4294967296 ^ 16)))
  refine ⟨i, j, hne, ?_⟩
  have hval : fpVal (computeID emptyFsys (cplan i)) = fpVal (computeID emptyFsys (cplan j)) :=
    congrArg Fin.val heq
  have hlen : (computeID emptyFsys (cplan i)).data.length
      = (computeID emptyFsys (cplan j)).data.length := by
    rw [computeID_data_length, computeID_data_length]
  exact string_data_injective (foldl_base_inj _ _ 0 0 hlen hval).2

/-- Command strings of different letter counts differ. -/
theorem aStr_ne (i j : Nat) (h : i ≠ j) : aStr i ≠ aStr j := by
  intro he
  apply h
  have := congrArg (fun s : String => s.data.length) he
  simpa [aStr] using this

/-- C1 counterexample: the claim as stated is false — the fingerprint is
only the first 16 hex characters of the digest, so by pigeonhole two
declarations that differ in a single command string must share a
fingerprint, contradicting the claimed sensitivity. -/
theorem claimC1_false : ¬ claimC1 := by
  intro h
  obtain ⟨i, j, hne, heq⟩ := computeID_collision
  exact h.2.2.1 emptyFsys (cplan i) (cplan j) [] [] (aStr i) (aStr j)
    rfl trivial rfl rfl rfl (aStr_ne i j hne) heq

/-! ### Amended C1: determinism, and sensitivity of the hashed stream -/

/-- Matching file lists contribute identical bytes to the hash. -/
theorem filesHashBytes_congr (fsys : String → Option (List Nat))
    {o1 o2 : Option (List FileBlock)} (h : filesMatch fsys o1 o2) :
    filesHashBytes fsys o1 = filesHashBytes fsys o2 := by
  cases o1 with
  | none =>
    cases o2 with
    | none => rfl
    | some l2 => exact absurd h (by simp [filesMatch])
  | some l1 =>
    cases o2 with
    | none => exact absurd h (by simp [filesMatch])
    | some l2 =>
      have hf : List.Forall₂ (fun f g => f.destination = g.destination ∧
          resolvedBytes fsys f = resolvedBytes fsys g) l1 l2 := h
      clear h
      show (List.map (fileHashBytes fsys) l1).flatten
        = (List.map (fileHashBytes fsys) l2).flatten
      induction hf with
      | nil => rfl
      | cons hfg _ ih =>
        simp only [List.map_cons, List.flatten_cons]
        rw [ih]
        congr 1
        unfold fileHashBytes
        rw [hfg.1, hfg.2]

/-- Trigger maps with equal sorted pair lists contribute identical bytes
to the hash. -/
theorem triggersHashBytes_congr {t1 t2 : Option (List (String × String))}
    (h : Option.map sortTriggers t1 = Option.map sortTriggers t2) :
    triggersHashBytes t1 = triggersHashBytes t2 := by
  cases t1 with
  | none =>
    cases t2 with
    | none => rfl
    | some l2 => exact absurd h (by simp)
  | some l1 =>
    cases t2 with
    | none => exact absurd h (by simp)
    | some l2 =>
      have hs : sortTriggers l1 = sortTriggers l2 := by
        simpa using h
      show (List.map pairBytes (sortTriggers l1)).flatten
        = (List.map pairBytes (sortTriggers l2)).flatten
      rw [hs]

/-- Concatenating mapped blocks distinguishes lists that differ at one
position with a different image. -/
theorem flatten_map_single_diff {α : Type} (f : α → List Nat) (pre suf : List α)
    (x y : α) (h : f x ≠ f y) :
    (List.map f (pre ++ x :: suf)).flatten ≠ (List.map f (pre ++ y :: suf)).flatten := by
  intro heq
  apply h
  rw [List.map_append, List.map_cons, List.map_append, List.map_cons,
    List.flatten_append, List.flatten_cons, List.flatten_append, List.flatten_cons] at heq
  exact List.append_cancel_right (List.append_cancel_left heq)

/-- C1 amended: computeID is deterministic — equal target VM, equal
resolved file inputs, equal commands and equal sorted trigger pairs give
the same fingerprint — and the byte stream it hashes is sensitive:
changing one file's resolved content, one command string, or one trigger
value changes the hashed stream (the 16-hex-character fingerprint itself
can collide, which is what the counterexample exhibits). -/
theorem computeID_deterministic_and_input_sensitive :
    (∀ (fsys : String → Option (List Nat)) (p q : ProvisionPlan),
      p.vmID = q.vmID → filesMatch fsys p.files q.files → p.commands = q.commands →
      Option.map sortTriggers p.triggers = Option.map sortTriggers q.triggers →
      computeID fsys p = computeID fsys q) ∧
    (∀ (fsys : String → Option (List Nat)) (p q : ProvisionPlan)
      (pre suf : List FileBlock) (fb gb : FileBlock),
      p.vmID = q.vmID → p.commands = q.commands →
      Option.map sortTriggers p.triggers = Option.map sortTriggers q.triggers →
      p.files = some (pre ++ fb :: suf) → q.files = some (pre ++ gb :: suf) →
      fb.destination = gb.destination →
      resolvedBytes fsys fb ≠ resolvedBytes fsys gb →
      hashInput fsys p ≠ hashInput fsys q) ∧
    (∀ (fsys : String → Option (List Nat)) (p q : ProvisionPlan)
      (pre suf : List String) (c d : String),
      p.vmID = q.vmID → filesMatch fsys p.files q.files →
      Option.map sortTriggers p.triggers = Option.map sortTriggers q.triggers →
      p.commands = some (pre ++ c :: suf) → q.commands = some (pre ++ d :: suf) →
      c ≠ d → hashInput fsys p ≠ hashInput fsys q) ∧
    (∀ (fsys : String → Option (List Nat)) (p q : ProvisionPlan)
      (tsP tsQ : List (String × String)) (pre suf : List (String × String))
      (key v w : String),
      p.vmID = q.vmID → filesMatch fsys p.files q.files → p.commands = q.commands →
      p.triggers = some tsP → q.triggers = some tsQ →
      sortTriggers tsP = pre ++ (key, v) :: suf →
      sortTriggers tsQ = pre ++ (key, w) :: suf →
      v ≠ w → hashInput fsys p ≠ hashInput fsys q) := by
  refine ⟨?_, ?_, ?_, ?_⟩
  · intro fsys p q hvm hfm hcq htr
    have hin : hashInput fsys p = hashInput fsys q := by
      unfold hashInput
      rw [hvm, filesHashBytes_congr fsys hfm, hcq, triggersHashBytes_congr htr]
    unfold computeID
    rw [hin]
  · intro fsys p q pre suf fb gb hvm hcq htr hpf hqf hdest hres heq
    unfold hashInput at heq
    rw [hvm, hcq, triggersHashBytes_congr htr, hpf, hqf] at heq
    have hF := List.append_cancel_left
      (List.append_cancel_right (List.append_cancel_right heq))
    have hF2 : (List.map (fileHashBytes fsys) (pre ++ fb :: suf)).flatten
        = (List.map (fileHashBytes fsys) (pre ++ gb :: suf)).flatten := hF
    refine flatten_map_single_diff (fileHashBytes fsys) pre suf fb gb ?_ hF2
    intro hfb
    apply hres
    unfold fileHashBytes at hfb
    rw [hdest] at hfb
    exact List.append_cancel_left hfb
  · intro fsys p q pre suf c d hvm hfm htr hpc hqc hcd heq
    unfold hashInput at heq
    rw [hvm, filesHashBytes_congr fsys hfm, triggersHashBytes_congr htr,
      hpc, hqc] at heq
    have hC := List.append_cancel_left (List.append_cancel_right heq)
    have hC2 : (List.map strBytes (pre ++ c :: suf)).flatten
        = (List.map strBytes (pre ++ d :: suf)).flatten := hC
    refine flatten_map_single_diff strBytes pre suf c d ?_ hC2
    intro hs
    exact hcd (strBytes_injective hs)
  · intro fsys p q tsP tsQ pre suf key v w hvm hfm hcq hpt hqt hsp hsq hvw heq
    unfold hashInput at heq
    rw [hvm, filesHashBytes_congr fsys hfm, hcq, hpt, hqt] at heq
    have hT := List.append_cancel_left heq
    have hT2 : (List.map pairBytes (sortTriggers tsP)).flatten
        = (List.map pairBytes (sortTriggers tsQ)).flatten := hT
    rw [hsp, hsq] at hT2
    refine flatten_map_single_diff pairBytes pre suf (key, v) (key, w) ?_ hT2
    intro hp
    apply hvw
    unfold pairBytes at hp
    exact strBytes_injective (List.append_cancel_left hp)

/-- C1 amended witness: two declarations whose trigger maps list the same
pairs in different orders get the same fingerprint, and changing the
single command changes the hashed byte stream. -/
theorem computeID_deterministic_and_input_sensitive_witness :
    computeID emptyFsys tplan1 = computeID emptyFsys tplan2 ∧
    hashInput emptyFsys tplan1 ≠ hashInput emptyFsys tplan3 :=
  ⟨computeID_deterministic_and_input_sensitive.1 emptyFsys tplan1 tplan2 rfl
      (List.Forall₂.cons ⟨rfl, rfl⟩ List.Forall₂.nil) rfl (by decide),
    computeID_deterministic_and_input_sensitive.2.2.1 emptyFsys tplan1 tplan3 [] []
      cmdA cmdB rfl (List.Forall₂.cons ⟨rfl, rfl⟩ List.Forall₂.nil) rfl rfl rfl
      (by decide)⟩

end VersTF
